import Mathlib

/-
Verification of board/variscite/common/imx9_eeprom.c: the EEPROM record
validation logic and the DRAM-table adjustment (merge) engine.

Machine integers are modelled as Nat with explicit truncation (mod 256,
mod 65536, mod 2^64) exactly where the C types force a narrowing
conversion or a wrap.  The identity-memory bus is modelled as a function
from byte offset to the row read there, and every function that issues
bus reads also returns the list of byte offsets it read, so that claims
about "no reads issued" are statable.
-/

set_option maxRecDepth 10000

/- Byte-order helpers.  The target (i.MX9, AArch64 U-Boot) is
little-endian, so htons and be32_to_cpu are byte swaps of the
natively-loaded field value. -/

/-- htons on a 16-bit value on the little-endian target: byte swap. -/
def htons (v : Nat) : Nat := (v % 256) * 256 + (v / 256) % 256

/-- be32_to_cpu on a 32-bit value on the little-endian target: byte swap. -/
def be32_to_cpu (v : Nat) : Nat :=
  (v % 256) * 16777216 + (v / 256 % 256) * 65536 +
  (v / 65536 % 256) * 256 + (v / 16777216 % 256)

/- CRC32. -/

/-- Modelled from the spec: the checksum is CRC32 (the U-Boot crc32 from
lib/crc32.c, not present under src/, is the standard zlib CRC-32 with
reflected polynomial 0xEDB88320).  One bit step of the byte loop. -/
def crc32_shift : Nat → Nat → Nat
  | 0, c => c
  | k + 1, c => crc32_shift k (if c % 2 = 1 then (c / 2) ^^^ 0xEDB88320 else c / 2)

/-- CRC32 accumulation of one byte. -/
def crc32_byte (c b : Nat) : Nat := crc32_shift 8 (c ^^^ (b % 256))

/-- crc32(seed, buf, len): zlib CRC-32 over a byte list. -/
def crc32 (seed : Nat) (buf : List Nat) : Nat :=
  (buf.foldl crc32_byte (seed ^^^ 0xFFFFFFFF)) ^^^ 0xFFFFFFFF

/- Secondary (carrier-board) record. -/

/-- Modelled from the spec: struct var_carrier_eeprom (the header
imx9_eeprom.h is not under src/).  Packed wire layout: a 2-byte magic
tag at offset 0, a 1-byte structure version, the fixed-width
carrier-revision text, then the 4-byte crc field.  Multi-byte fields
are kept as their individual wire bytes so that both the native
(little-endian) load and the network-byte-order interpretation are
expressible. -/
structure var_carrier_eeprom where
  magic0 : Nat
  magic1 : Nat
  struct_ver : Nat
  carrier_rev : List Nat
  crc0 : Nat
  crc1 : Nat
  crc2 : Nat
  crc3 : Nat
deriving DecidableEq

/-- Well-formedness of a carrier record: every wire byte fits in a byte
(this is what the C field types u16/u8/u32 guarantee for any record
actually read from memory). -/
def var_carrier_eeprom.WF (ep : var_carrier_eeprom) : Prop :=
  ep.magic0 < 256 ∧ ep.magic1 < 256 ∧ ep.struct_ver < 256 ∧
  ep.crc0 < 256 ∧ ep.crc1 < 256 ∧ ep.crc2 < 256 ∧ ep.crc3 < 256

instance (ep : var_carrier_eeprom) : Decidable ep.WF := by
  unfold var_carrier_eeprom.WF; infer_instance

/-- Modelled from the spec: the fixed 2-byte magic constant
VAR_CARRIER_EEPROM_MAGIC (value lives in the header not under src/;
taken as the ASCII pair V C; no claim depends on the exact value). -/
def VAR_CARRIER_EEPROM_MAGIC : Nat := 0x5643

/-- The natively (little-endian) loaded u16 ep->magic. -/
def var_carrier_eeprom.magic (ep : var_carrier_eeprom) : Nat :=
  ep.magic0 + 256 * ep.magic1

/-- The natively (little-endian) loaded u32 ep->crc. -/
def var_carrier_eeprom.crc (ep : var_carrier_eeprom) : Nat :=
  ep.crc0 + 256 * ep.crc1 + 65536 * ep.crc2 + 16777216 * ep.crc3

/-- The raw bytes of the record from offset 0 up to (not including) the
crc field: magic bytes, struct_ver, carrier_rev.  This is the range
crc32 is computed over (offsetof(struct var_carrier_eeprom, crc)). -/
def bytesBeforeCrc (ep : var_carrier_eeprom) : List Nat :=
  ep.magic0 :: ep.magic1 :: ep.struct_ver :: ep.carrier_rev

/-- var_carrier_eeprom_is_valid, translated line by line from the C:
magic is compared after htons, the version gates the crc check, and the
crc comparison is against the natively loaded ep->crc (the
be32_to_cpu conversion in the C appears only inside the mismatch
printf, not in the comparison). -/
def var_carrier_eeprom_is_valid (ep : var_carrier_eeprom) : Nat :=
  if htons ep.magic ≠ VAR_CARRIER_EEPROM_MAGIC then 0
  else if ep.struct_ver < 1 then 0
  else if ep.struct_ver = 1 then 1
  else if crc32 0 (bytesBeforeCrc ep) ≠ ep.crc then 0
  else 1

/- strncpy and the revision accessor. -/

/-- strncpy(dest, src, n) as the list of n bytes written: copies bytes
of src until a NUL, then pads with NUL bytes up to n total. -/
def strncpyModel : List Nat → Nat → List Nat
  | _, 0 => []
  | [], n + 1 => List.replicate (n + 1) 0
  | c :: cs, n + 1 => if c = 0 then List.replicate (n + 1) 0 else c :: strncpyModel cs n

/-- The bytes of the C string literal legacy, NUL terminator included. -/
def legacyBytes : List Nat := [108, 101, 103, 97, 99, 121, 0]

/-- var_carrier_eeprom_get_revision: the n bytes strncpy writes into the
caller's buffer. -/
def var_carrier_eeprom_get_revision (ep : var_carrier_eeprom) (n : Nat) : List Nat :=
  if var_carrier_eeprom_is_valid ep = 1 then strncpyModel ep.carrier_rev n
  else strncpyModel legacyBytes n

/- Primary (SoM) record. -/

/-- Modelled from the spec: the fields of struct var_eeprom that the
functions under verification read (the header imx9_eeprom.h is not
under src/).  version and dramsize are u8, mac is 6 bytes, off is the
DRAM_TABLE_NUM + 1 = 6 entry u8 offset table, fsp_drate is u16.
Validity of the record is decided by an external predicate
(var_eeprom_is_valid is not implemented in this subsystem), so every
model function takes its boolean result as a parameter. -/
structure var_eeprom where
  version : Nat
  mac : List Nat
  dramsize : Nat
  off : List Nat
  fsp_drate : Nat
deriving DecidableEq

/-- Modelled from the spec: the fixed default DRAM capacity
DEFAULT_SDRAM_SIZE (value lives in the header not under src/; no claim
depends on the exact value, only on it being a fixed constant). -/
def DEFAULT_SDRAM_SIZE : Nat := 0x20000000

/-- var_eeprom_get_mac: returns (return code, the caller's mac buffer
after the call).  On an untrusted record it returns -1 with the buffer
untouched; otherwise memcpy of the 6 mac bytes over the start of the
buffer. -/
def var_eeprom_get_mac (is_valid : Bool) (ep : var_eeprom) (buf : List Nat) :
    Int × List Nat :=
  if !is_valid then (-1, buf)
  else (0, ep.mac ++ buf.drop ep.mac.length)

/-- var_eeprom_get_dram_size: returns (return code, *size).  Untrusted
records get the fixed default; trusted ones (ep->dramsize * 128UL) << 20. -/
def var_eeprom_get_dram_size (is_valid : Bool) (ep : var_eeprom) : Int × Nat :=
  if !is_valid then (0, DEFAULT_SDRAM_SIZE)
  else (0, (ep.dramsize * 128) <<< 20)

/- DRAM configuration structures. -/

/-- Modelled from the spec: struct dram_cfg_param (asm/arch-imx9/ddr.h,
not under src/): a (register address, value) pair of two 32-bit words,
so sizeof = 8 bytes. -/
structure dram_cfg_param where
  reg : Nat
  val : Nat
deriving DecidableEq

/-- Modelled from the spec: the drate field and the cfg table of one
frequency-set-point message of struct dram_timing_info. -/
structure dram_fsp_msg where
  drate : Nat
  fsp_cfg : List dram_cfg_param
deriving DecidableEq

/-- Modelled from the spec: the parts of struct dram_timing_info the
adjustment engine touches.  Each cfg_num is the length of the
corresponding list. -/
structure dram_timing_info where
  ddrc_cfg : List dram_cfg_param
  ddrphy_cfg : List dram_cfg_param
  ddrphy_pie : List dram_cfg_param
  fsp_msg0 : dram_fsp_msg
  fsp_msg1 : dram_fsp_msg
  fsp_table : List Nat
deriving DecidableEq

/- The merge (adjustment) algorithm. -/

/-- The inner scan loop of adjust_dram_table:
for (; j < table_size; j++) if (table[j].reg == reg) { table[j].val = val; break; }
The loop is bounded by the u8 table_size parameter, not by the list's
true length: the caller passes the unsigned int cfg_num, which the u8
parameter narrows mod 256, so for tables of 256 or more rows the scan
covers only the first cfg_num mod 256 entries.  The fuel argument is
the number of indices left to visit (table_size - j at entry), so the
recursion is structural; table[j] is in bounds in the program because
table_size = cfg_num mod 256 never exceeds the row count cfg_num. -/
def scanGo : Nat → List dram_cfg_param → Nat → Nat → Nat → Nat → List dram_cfg_param × Nat
  | 0, table, j, _, _, _ => (table, j)
  | fuel + 1, table, j, table_size, r, v =>
    if j < table_size then
      if (table.getD j ⟨0, 0⟩).reg = r then
        (table.set j { reg := (table.getD j ⟨0, 0⟩).reg, val := v }, j)
      else scanGo fuel table (j + 1) table_size r v
    else (table, j)

/-- One adjustment row applied to the table from cursor j with scan
bound table_size: returns the updated table and the cursor after the
row (the matched index on a match, table_size on scan exhaustion). -/
def scanFrom (table : List dram_cfg_param) (table_size j r v : Nat) :
    List dram_cfg_param × Nat :=
  scanGo (table_size - j) table j table_size r v

/-- The outer loop of adjust_dram_table: n remaining adjustment rows,
current bus offset off (a u8 that wraps when stepped by sizeof(row) = 8),
merge cursor j, scan bound table_size.  Returns the final table and
the list of bus offsets read, in order. -/
def adjLoop (bus : Nat → dram_cfg_param) :
    Nat → Nat → Nat → Nat → List dram_cfg_param → List dram_cfg_param × List Nat
  | 0, _, _, _, table => (table, [])
  | n + 1, off, j, table_size, table =>
    let row := bus off
    let s := scanFrom table table_size j row.reg row.val
    let rest := adjLoop bus n ((off + 8) % 256) s.2 table_size s.1
    (rest.1, off :: rest.2)

/-- adjust_dram_table: if the EEPROM device probe fails the function
returns with no reads and no changes; otherwise it walks
adj_table_size rows starting at byte offset adj_table_offset with the
merge cursor starting at 0 and the scan bounded by table_size.  All
three numeric parameters are u8 in the C, so each actual argument is
narrowed mod 256 on entry: the caller passes a u16 adjustment size and
the unsigned int cfg_num as the table size. -/
def adjust_dram_table (dev_ok : Bool) (bus : Nat → dram_cfg_param)
    (adj_table_offset adj_table_size table_size : Nat)
    (table : List dram_cfg_param) : List dram_cfg_param × List Nat :=
  if dev_ok then
    adjLoop bus (adj_table_size % 256) (adj_table_offset % 256) 0 (table_size % 256) table
  else (table, [])

/-- DRAM_TABLE_NUM: five named adjustment tables. -/
def DRAM_TABLE_NUM : Nat := 5

/-- The size computation (off[i+1] - off[i]) / sizeof(struct
dram_cfg_param) with the exact C conversions: the u8 operands are
subtracted as int, converted to the unsigned 64-bit size_t (mod 2^64)
by the division, and the quotient is stored into a u16 (mod 65536). -/
def calc_adj_size (hi lo : Nat) : Nat :=
  ((((hi : Int) - (lo : Int)).emod (2 ^ 64)).toNat / 8) % 65536

/-- The size-computation loop
for (i = 0; i < DRAM_TABLE_NUM && ep->off[i+1] != 0; i++) ... :
fuel counts the remaining iterations up to DRAM_TABLE_NUM; sizes is the
current contents of the adj_table_size array, which starts out as
whatever garbage the uninitialized stack held. -/
def sizes_loop : Nat → Nat → List Nat → List Nat → List Nat
  | 0, _, _, sizes => sizes
  | fuel + 1, i, off, sizes =>
    if off.getD (i + 1) 0 ≠ 0 then
      sizes_loop fuel (i + 1) off
        (sizes.set i (calc_adj_size (off.getD (i + 1) 0) (off.getD i 0)))
    else sizes

/-- var_eeprom_adjust_dram.  is_valid is the result of the external
validity predicate on ep; garbage is the indeterminate initial contents
of the uninitialized local u16 adj_table_size[DRAM_TABLE_NUM]; dev_ok
tells whether the EEPROM device probe inside adjust_dram_table
succeeds.  Returns the adjusted dram_timing_info and the list of bus
offsets read.  Each call passes the u16 size and the table's true row
count cfg_num; the u8 parameters of adjust_dram_table narrow both
mod 256, as in the C. -/
def var_eeprom_adjust_dram (dev_ok is_valid : Bool) (bus : Nat → dram_cfg_param)
    (ep : var_eeprom) (garbage : List Nat) (d : dram_timing_info) :
    dram_timing_info × List Nat :=
  if !is_valid then (d, [])
  else if ep.version < 2 then (d, [])
  else
    let sizes := sizes_loop DRAM_TABLE_NUM 0 ep.off garbage
    let a0 := adjust_dram_table dev_ok bus (ep.off.getD 0 0) (sizes.getD 0 0)
        d.ddrc_cfg.length d.ddrc_cfg
    let a1 := adjust_dram_table dev_ok bus (ep.off.getD 1 0) (sizes.getD 1 0)
        d.ddrphy_cfg.length d.ddrphy_cfg
    let a2 := adjust_dram_table dev_ok bus (ep.off.getD 2 0) (sizes.getD 2 0)
        d.ddrphy_pie.length d.ddrphy_pie
    let a3 := adjust_dram_table dev_ok bus (ep.off.getD 3 0) (sizes.getD 3 0)
        d.fsp_msg0.fsp_cfg.length d.fsp_msg0.fsp_cfg
    let a4 := adjust_dram_table dev_ok bus (ep.off.getD 4 0) (sizes.getD 4 0)
        d.fsp_msg1.fsp_cfg.length d.fsp_msg1.fsp_cfg
    ({ ddrc_cfg := a0.1
       ddrphy_cfg := a1.1
       ddrphy_pie := a2.1
       fsp_msg0 := { drate := ep.fsp_drate, fsp_cfg := a3.1 }
       fsp_msg1 := { drate := ep.fsp_drate, fsp_cfg := a4.1 }
       fsp_table := d.fsp_table.set 0 ep.fsp_drate },
     a0.2 ++ a1.2 ++ a2.2 ++ a3.2 ++ a4.2)

/- Helper lemmas on the carrier validator, shared by several claims. -/

theorem htons_wf (m0 m1 : Nat) (h0 : m0 < 256) (h1 : m1 < 256) :
    htons (m0 + 256 * m1) = 256 * m0 + m1 := by
  unfold htons; omega

theorem carrier_invalid_magic (ep : var_carrier_eeprom)
    (hm : htons ep.magic ≠ VAR_CARRIER_EEPROM_MAGIC) :
    var_carrier_eeprom_is_valid ep = 0 := by
  simp [var_carrier_eeprom_is_valid, hm]

theorem carrier_invalid_ver0 (ep : var_carrier_eeprom) (hv : ep.struct_ver = 0) :
    var_carrier_eeprom_is_valid ep = 0 := by
  by_cases hm : htons ep.magic = VAR_CARRIER_EEPROM_MAGIC <;>
    simp [var_carrier_eeprom_is_valid, hm, hv]

theorem carrier_valid_ver1 (ep : var_carrier_eeprom)
    (hm : htons ep.magic = VAR_CARRIER_EEPROM_MAGIC) (hv : ep.struct_ver = 1) :
    var_carrier_eeprom_is_valid ep = 1 := by
  simp [var_carrier_eeprom_is_valid, hm, hv]

theorem carrier_invalid_crc (ep : var_carrier_eeprom) (hv : 2 ≤ ep.struct_ver)
    (hc : crc32 0 (bytesBeforeCrc ep) ≠ ep.crc) :
    var_carrier_eeprom_is_valid ep = 0 := by
  by_cases hm : htons ep.magic = VAR_CARRIER_EEPROM_MAGIC
  · have h1 : ¬ ep.struct_ver < 1 := by omega
    have h2 : ¬ ep.struct_ver = 1 := by omega
    simp [var_carrier_eeprom_is_valid, hm, h1, h2, hc]
  · simp [var_carrier_eeprom_is_valid, hm]

theorem carrier_valid_crc (ep : var_carrier_eeprom)
    (hm : htons ep.magic = VAR_CARRIER_EEPROM_MAGIC) (hv : 2 ≤ ep.struct_ver)
    (hc : crc32 0 (bytesBeforeCrc ep) = ep.crc) :
    var_carrier_eeprom_is_valid ep = 1 := by
  have h1 : ¬ ep.struct_ver < 1 := by omega
  have h2 : ¬ ep.struct_ver = 1 := by omega
  simp [var_carrier_eeprom_is_valid, hm, h1, h2, hc]

theorem htons_magic_wf (ep : var_carrier_eeprom) (hw : ep.WF) :
    htons ep.magic = 256 * ep.magic0 + ep.magic1 := by
  obtain ⟨h0, h1, -⟩ := hw
  exact htons_wf ep.magic0 ep.magic1 h0 h1

/- Helper lemmas on strncpy. -/

theorem strncpyModel_no_nul (src : List Nat) (h : ∀ b ∈ src, b ≠ 0) :
    strncpyModel src src.length = src := by
  induction src with
  | nil => rfl
  | cons c cs ih =>
    have hc : c ≠ 0 := h c (by simp)
    simp [strncpyModel, hc]
    exact ih (fun b hb => h b (by simp [hb]))

theorem strncpyModel_legacy (n : Nat) (h : 7 ≤ n) :
    strncpyModel legacyBytes n =
      108 :: 101 :: 103 :: 97 :: 99 :: 121 :: List.replicate (n - 6) 0 := by
  obtain ⟨k, hk⟩ : ∃ k, n = k + 7 := ⟨n - 7, by omega⟩
  subst hk
  have hrep : k + 7 - 6 = k + 1 := by omega
  simp [legacyBytes, strncpyModel, hrep]

/- Helper lemmas on lists (set and getD interaction). -/

theorem list_set_of_length_le {α : Type} (l : List α) :
    ∀ (j : Nat) (a : α), l.length ≤ j → l.set j a = l := by
  induction l with
  | nil => intro j a h; rfl
  | cons x xs ih =>
    intro j a h
    cases j with
    | zero => simp at h
    | succ k =>
      have hk : xs.length ≤ k := by simp at h; omega
      simp [List.set, ih k a hk]

theorem list_getD_set_self {α : Type} (l : List α) :
    ∀ (j : Nat) (a d : α), j < l.length → (l.set j a).getD j d = a := by
  induction l with
  | nil => intro j a d h; simp at h
  | cons x xs ih =>
    intro j a d h
    cases j with
    | zero => rfl
    | succ k =>
      have hk : k < xs.length := by simp at h; omega
      simpa [List.set] using ih k a d hk

theorem list_getD_set_other {α : Type} (l : List α) :
    ∀ (i j : Nat), i ≠ j → ∀ (a d : α), (l.set j a).getD i d = l.getD i d := by
  induction l with
  | nil => intro i j hij a d; rfl
  | cons x xs ih =>
    intro i j hij a d
    cases j with
    | zero =>
      cases i with
      | zero => exact absurd rfl hij
      | succ m => rfl
    | succ k =>
      cases i with
      | zero => rfl
      | succ m =>
        have hmk : m ≠ k := fun he => hij (by rw [he])
        simpa [List.set] using ih m k hmk a d

/- Helper lemmas on the merge loops. -/

theorem map_reg_set_getD (l : List dram_cfg_param) :
    ∀ (j v : Nat),
      (l.set j { reg := (l.getD j ⟨0, 0⟩).reg, val := v }).map dram_cfg_param.reg
        = l.map dram_cfg_param.reg := by
  induction l with
  | nil => intro j v; rfl
  | cons a as ih =>
    intro j v
    cases j with
    | zero => simp [List.set]
    | succ k =>
      simp only [List.set, List.getD_cons_succ, List.map, List.cons.injEq, true_and]
      exact ih k v

theorem scanGo_map_reg (r v : Nat) :
    ∀ (fuel : Nat) (table : List dram_cfg_param) (j B : Nat),
      ((scanGo fuel table j B r v).1).map dram_cfg_param.reg
        = table.map dram_cfg_param.reg := by
  intro fuel
  induction fuel with
  | zero => intro table j B; rfl
  | succ n ih =>
    intro table j B
    simp only [scanGo]
    split
    · split
      · simpa using map_reg_set_getD table j v
      · exact ih table (j + 1) B
    · rfl

theorem adjLoop_map_reg (bus : Nat → dram_cfg_param) :
    ∀ (n off j B : Nat) (table : List dram_cfg_param),
      ((adjLoop bus n off j B table).1).map dram_cfg_param.reg
        = table.map dram_cfg_param.reg := by
  intro n
  induction n with
  | zero => intro off j B table; rfl
  | succ m ih =>
    intro off j B table
    simp only [adjLoop]
    rw [ih]
    exact scanGo_map_reg _ _ _ _ _ _

theorem adjust_dram_table_map_reg (dev_ok : Bool) (bus : Nat → dram_cfg_param)
    (o s B : Nat) (table : List dram_cfg_param) :
    ((adjust_dram_table dev_ok bus o s B table).1).map dram_cfg_param.reg
      = table.map dram_cfg_param.reg := by
  cases dev_ok with
  | false => rfl
  | true => exact adjLoop_map_reg bus (s % 256) (o % 256) 0 (B % 256) table

theorem scanGo_found (r v : Nat) :
    ∀ (fuel : Nat) (table : List dram_cfg_param) (j B : Nat), fuel = B - j →
      ∀ (k : Nat), k < B → j ≤ k → (table.getD k ⟨0, 0⟩).reg = r →
        (∀ (l : Nat), l < k → j ≤ l → (table.getD l ⟨0, 0⟩).reg ≠ r) →
        scanGo fuel table j B r v = (table.set k { reg := r, val := v }, k) := by
  intro fuel
  induction fuel with
  | zero =>
    intro table j B hfuel k hk hjk hreg hmin
    omega
  | succ n ih =>
    intro table j B hfuel k hk hjk hreg hmin
    have hj : j < B := Nat.lt_of_le_of_lt hjk hk
    simp only [scanGo]
    rw [if_pos hj]
    by_cases hcase : (table.getD j ⟨0, 0⟩).reg = r
    · have hjeq : j = k := by
        by_contra hne
        exact hmin j (Nat.lt_of_le_of_ne hjk hne) (Nat.le_refl j) hcase
      subst hjeq
      rw [if_pos hcase, hcase]
    · rw [if_neg hcase]
      have hne : j ≠ k := by
        intro he
        subst he
        exact hcase hreg
      exact ih table (j + 1) B (by omega) k hk (by omega) hreg
        (fun l h1 h2 => hmin l h1 (by omega))

theorem scanGo_none (r v : Nat) :
    ∀ (fuel : Nat) (table : List dram_cfg_param) (j B : Nat), fuel = B - j →
      j ≤ B →
      (∀ (k : Nat), k < B → j ≤ k → (table.getD k ⟨0, 0⟩).reg ≠ r) →
      scanGo fuel table j B r v = (table, B) := by
  intro fuel
  induction fuel with
  | zero =>
    intro table j B hfuel hj hnone
    have hjb : j = B := by omega
    simp [scanGo, hjb]
  | succ n ih =>
    intro table j B hfuel hj hnone
    have hjlt : j < B := by omega
    simp only [scanGo]
    rw [if_pos hjlt, if_neg (hnone j hjlt (Nat.le_refl j))]
    exact ih table (j + 1) B (by omega) (by omega)
      (fun k hk hjk => hnone k hk (by omega))

theorem adjLoop_end (bus : Nat → dram_cfg_param) :
    ∀ (n off B : Nat) (table : List dram_cfg_param),
      (adjLoop bus n off B B table).1 = table := by
  intro n
  induction n with
  | zero => intro off B table; rfl
  | succ m ih =>
    intro off B table
    simp only [adjLoop]
    have hs : scanFrom table B B (bus off).reg (bus off).val = (table, B) := by
      simp [scanFrom, Nat.sub_self, scanGo]
    rw [hs]
    exact ih ((off + 8) % 256) B table

theorem scanGo_frame (r v : Nat) :
    ∀ (fuel : Nat) (table : List dram_cfg_param) (j B i : Nat),
      ((scanGo fuel table j B r v).1).getD i ⟨0, 0⟩ = table.getD i ⟨0, 0⟩ ∨
      ((table.getD i ⟨0, 0⟩).reg = r ∧
        ((scanGo fuel table j B r v).1).getD i ⟨0, 0⟩ = { reg := r, val := v }) := by
  intro fuel
  induction fuel with
  | zero => intro table j B i; exact Or.inl rfl
  | succ n ih =>
    intro table j B i
    simp only [scanGo]
    by_cases hj : j < B
    · rw [if_pos hj]
      by_cases hr : (table.getD j ⟨0, 0⟩).reg = r
      · rw [if_pos hr]
        by_cases hij : i = j
        · subst hij
          by_cases hlen : i < table.length
          · right
            refine ⟨hr, ?_⟩
            rw [list_getD_set_self table i _ ⟨0, 0⟩ hlen, hr]
          · left
            rw [list_set_of_length_le table i _ (by omega)]
        · left
          exact list_getD_set_other table i j hij _ ⟨0, 0⟩
      · rw [if_neg hr]
        exact ih table (j + 1) B i
    · rw [if_neg hj]
      exact Or.inl rfl

theorem scanFrom_frame (table : List dram_cfg_param) (B j r v i : Nat) :
    ((scanFrom table B j r v).1).getD i ⟨0, 0⟩ = table.getD i ⟨0, 0⟩ ∨
    ((table.getD i ⟨0, 0⟩).reg = r ∧
      ((scanFrom table B j r v).1).getD i ⟨0, 0⟩ = { reg := r, val := v }) :=
  scanGo_frame r v (B - j) table j B i

theorem adjLoop_frame (bus : Nat → dram_cfg_param) :
    ∀ (n off j B : Nat) (table : List dram_cfg_param) (i : Nat),
      ((adjLoop bus n off j B table).1).getD i ⟨0, 0⟩ = table.getD i ⟨0, 0⟩ ∨
      ∃ q, q ∈ (adjLoop bus n off j B table).2 ∧
        (bus q).reg = (table.getD i ⟨0, 0⟩).reg ∧
        ((adjLoop bus n off j B table).1).getD i ⟨0, 0⟩
          = { reg := (table.getD i ⟨0, 0⟩).reg, val := (bus q).val } := by
  intro n
  induction n with
  | zero => intro off j B table i; exact Or.inl rfl
  | succ m ih =>
    intro off j B table i
    have hscan := scanFrom_frame table B j (bus off).reg (bus off).val i
    simp only [adjLoop]
    rcases ih ((off + 8) % 256) (scanFrom table B j (bus off).reg (bus off).val).2 B
        (scanFrom table B j (bus off).reg (bus off).val).1 i with hih | ⟨q, hq, hqr, hqe⟩
    · rcases hscan with hs | ⟨hsr, hse⟩
      · left
        rw [hih]
        exact hs
      · right
        refine ⟨off, by simp, hsr.symm, ?_⟩
        rw [hih, hse, hsr]
    · have hreg : (((scanFrom table B j (bus off).reg (bus off).val).1).getD i
          ⟨0, 0⟩).reg = (table.getD i ⟨0, 0⟩).reg := by
        rcases hscan with hs | ⟨hsr, hse⟩
        · rw [hs]
        · rw [hse]
          exact hsr.symm
      right
      refine ⟨q, by simp [hq], ?_, ?_⟩
      · rw [hqr, hreg]
      · rw [hqe, hreg]

theorem adjust_dram_table_frame (dev_ok : Bool) (bus : Nat → dram_cfg_param)
    (o s B : Nat) (table : List dram_cfg_param) (i : Nat) :
    ((adjust_dram_table dev_ok bus o s B table).1).getD i ⟨0, 0⟩
        = table.getD i ⟨0, 0⟩ ∨
    ∃ q, q ∈ (adjust_dram_table dev_ok bus o s B table).2 ∧
      (bus q).reg = (table.getD i ⟨0, 0⟩).reg ∧
      ((adjust_dram_table dev_ok bus o s B table).1).getD i ⟨0, 0⟩
        = { reg := (table.getD i ⟨0, 0⟩).reg, val := (bus q).val } := by
  cases dev_ok with
  | false => exact Or.inl rfl
  | true => exact adjLoop_frame bus (s % 256) (o % 256) 0 (B % 256) table i

/- Claim theorems. -/

/-- C2 counterexample: the claim says a struct_ver >= 2 record with good
magic is valid if and only if the computed CRC32 equals the stored crc
field interpreted in network byte order.  This concrete record is
accepted as valid by the code even though the computed CRC32 differs
from the network-byte-order (be32_to_cpu) interpretation of the stored
crc bytes: the comparison in the C uses the natively loaded field. -/
theorem carrier_crc_network_order_counterexample :
    var_carrier_eeprom_is_valid
        ⟨0x56, 0x43, 2, List.replicate 16 65, 197, 52, 22, 202⟩ = 1 ∧
    crc32 0 (bytesBeforeCrc ⟨0x56, 0x43, 2, List.replicate 16 65, 197, 52, 22, 202⟩) ≠
      be32_to_cpu
        (var_carrier_eeprom.crc ⟨0x56, 0x43, 2, List.replicate 16 65, 197, 52, 22, 202⟩) := by
  constructor
  · decide
  · decide

/-- C2 (amended): for a carrier record with correct magic (network byte
order) and struct_ver >= 2, is_valid computes CRC32 over all bytes
preceding the crc field and the record is valid if and only if that
value equals the stored crc field as natively loaded on the
little-endian host (no byte swap is applied in the comparison; the
network-byte-order conversion appears only in the diagnostic print). -/
theorem carrier_crc_host_order (ep : var_carrier_eeprom) (hw : ep.WF)
    (hm : 256 * ep.magic0 + ep.magic1 = VAR_CARRIER_EEPROM_MAGIC)
    (hv : 2 ≤ ep.struct_ver) :
    (var_carrier_eeprom_is_valid ep = 1 ↔ crc32 0 (bytesBeforeCrc ep) = ep.crc) := by
  have hbe : htons ep.magic = VAR_CARRIER_EEPROM_MAGIC := by
    rw [htons_magic_wf ep hw]; exact hm
  constructor
  · intro h1
    by_contra hc
    rw [carrier_invalid_crc ep hv hc] at h1
    exact absurd h1 (by omega)
  · intro hc
    exact carrier_valid_crc ep hbe hv hc

/-- C2 witness: a concrete struct_ver 2 record with correct magic whose
stored crc (natively loaded) equals the computed CRC32 validates. -/
theorem carrier_crc_host_order_witness :
    var_carrier_eeprom_is_valid
      ⟨0x56, 0x43, 2, List.replicate 16 66, 162, 150, 74, 211⟩ = 1 := by
  exact (carrier_crc_host_order ⟨0x56, 0x43, 2, List.replicate 16 66, 162, 150, 74, 211⟩
    (by decide) (by decide) (by decide)).mpr (by decide)

/-- C5: secondary-record validation: a magic tag that differs from the
fixed constant in network byte order yields invalid; struct_ver 0
yields invalid; correct magic with struct_ver 1 validates regardless of
the checksum bytes; and for struct_ver >= 2 a record whose stored
checksum field equals the correctly computed CRC32 validates. -/
theorem carrier_is_valid_cases (ep : var_carrier_eeprom) (hw : ep.WF) :
    (256 * ep.magic0 + ep.magic1 ≠ VAR_CARRIER_EEPROM_MAGIC →
        var_carrier_eeprom_is_valid ep = 0) ∧
    (ep.struct_ver = 0 → var_carrier_eeprom_is_valid ep = 0) ∧
    (256 * ep.magic0 + ep.magic1 = VAR_CARRIER_EEPROM_MAGIC → ep.struct_ver = 1 →
        var_carrier_eeprom_is_valid ep = 1) ∧
    (256 * ep.magic0 + ep.magic1 = VAR_CARRIER_EEPROM_MAGIC → 2 ≤ ep.struct_ver →
        crc32 0 (bytesBeforeCrc ep) = ep.crc →
        var_carrier_eeprom_is_valid ep = 1) := by
  have hbe := htons_magic_wf ep hw
  refine ⟨?_, ?_, ?_, ?_⟩
  · intro hm
    exact carrier_invalid_magic ep (by rw [hbe]; exact hm)
  · intro hv
    exact carrier_invalid_ver0 ep hv
  · intro hm hv
    exact carrier_valid_ver1 ep (by rw [hbe]; exact hm) hv
  · intro hm hv hc
    exact carrier_valid_crc ep (by rw [hbe]; exact hm) hv hc

/-- C5 witness: concrete records exercising all four cases: wrong magic,
struct_ver 0, struct_ver 1 with junk checksum bytes, and struct_ver 2
with a correctly computed CRC32. -/
theorem carrier_is_valid_cases_witness :
    var_carrier_eeprom_is_valid ⟨0, 0, 1, [], 0, 0, 0, 0⟩ = 0 ∧
    var_carrier_eeprom_is_valid ⟨0x56, 0x43, 0, [], 0, 0, 0, 0⟩ = 0 ∧
    var_carrier_eeprom_is_valid ⟨0x56, 0x43, 1, [], 9, 9, 9, 9⟩ = 1 ∧
    var_carrier_eeprom_is_valid
      ⟨0x56, 0x43, 2, List.replicate 16 65, 197, 52, 22, 202⟩ = 1 := by
  refine ⟨(carrier_is_valid_cases _ (by decide)).1 (by decide),
          (carrier_is_valid_cases _ (by decide)).2.1 rfl,
          (carrier_is_valid_cases _ (by decide)).2.2.1 (by decide) rfl,
          (carrier_is_valid_cases _ (by decide)).2.2.2 (by decide) (by decide) (by decide)⟩

/-- C8: get_revision writes via strncpy the stored carrier_rev bytes
when the record validates and the literal text legacy for every cause
of validation failure (wrong magic, invalid version, checksum
mismatch); for buffers of at least 7 bytes the fallback bytes are
exactly the text legacy with its NUL terminator, and a valid record
with NUL-free revision text of the buffer length is copied verbatim. -/
theorem carrier_get_revision_spec (ep : var_carrier_eeprom) (n : Nat) :
    (var_carrier_eeprom_is_valid ep = 1 →
        var_carrier_eeprom_get_revision ep n = strncpyModel ep.carrier_rev n) ∧
    (htons ep.magic ≠ VAR_CARRIER_EEPROM_MAGIC →
        var_carrier_eeprom_get_revision ep n = strncpyModel legacyBytes n) ∧
    (ep.struct_ver = 0 →
        var_carrier_eeprom_get_revision ep n = strncpyModel legacyBytes n) ∧
    (2 ≤ ep.struct_ver → crc32 0 (bytesBeforeCrc ep) ≠ ep.crc →
        var_carrier_eeprom_get_revision ep n = strncpyModel legacyBytes n) ∧
    (7 ≤ n → strncpyModel legacyBytes n =
        108 :: 101 :: 103 :: 97 :: 99 :: 121 :: List.replicate (n - 6) 0) ∧
    ((∀ b ∈ ep.carrier_rev, b ≠ 0) → var_carrier_eeprom_is_valid ep = 1 →
        var_carrier_eeprom_get_revision ep ep.carrier_rev.length = ep.carrier_rev) := by
  refine ⟨?_, ?_, ?_, ?_, ?_, ?_⟩
  · intro h1
    simp [var_carrier_eeprom_get_revision, h1]
  · intro hm
    simp [var_carrier_eeprom_get_revision, carrier_invalid_magic ep hm]
  · intro hv
    simp [var_carrier_eeprom_get_revision, carrier_invalid_ver0 ep hv]
  · intro hv hc
    simp [var_carrier_eeprom_get_revision, carrier_invalid_crc ep hv hc]
  · exact strncpyModel_legacy n
  · intro hz h1
    simp [var_carrier_eeprom_get_revision, h1, strncpyModel_no_nul ep.carrier_rev hz]

/-- C8 witness: an invalid record (wrong magic) with a 7-byte buffer
yields exactly the text legacy with its terminator. -/
theorem carrier_get_revision_spec_witness :
    var_carrier_eeprom_get_revision ⟨0, 0, 1, [], 0, 0, 0, 0⟩ 7 =
      [108, 101, 103, 97, 99, 121, 0] := by
  have h := (carrier_get_revision_spec ⟨0, 0, 1, [], 0, 0, 0, 0⟩ 7).2.1 (by decide)
  rw [h]
  decide

/-- C9: get_mac fails exactly on an untrusted record; on failure the
caller's buffer is returned untouched, and on success the record's 6
mac bytes are copied over the start of the buffer. -/
theorem get_mac_spec (is_valid : Bool) (ep : var_eeprom) (buf : List Nat) :
    ((var_eeprom_get_mac is_valid ep buf).1 ≠ 0 ↔ is_valid = false) ∧
    (is_valid = false → var_eeprom_get_mac is_valid ep buf = (-1, buf)) ∧
    (is_valid = true → ep.mac.length = 6 →
        var_eeprom_get_mac is_valid ep buf = (0, ep.mac ++ buf.drop 6)) := by
  cases is_valid with
  | false => simp [var_eeprom_get_mac]
  | true =>
    refine ⟨by simp [var_eeprom_get_mac], by simp, ?_⟩
    intro hmac h6
    simp [var_eeprom_get_mac, h6]

/-- C9 witness: a trusted record copies its 6 mac bytes over the first 6
buffer bytes and leaves the rest; an untrusted one returns -1 and the
buffer untouched. -/
theorem get_mac_spec_witness :
    var_eeprom_get_mac true ⟨2, [1, 2, 3, 4, 5, 6], 0, [], 0⟩ [9, 9, 9, 9, 9, 9, 9]
        = (0, [1, 2, 3, 4, 5, 6, 9]) ∧
    var_eeprom_get_mac false ⟨2, [1, 2, 3, 4, 5, 6], 0, [], 0⟩ [9, 9] = (-1, [9, 9]) := by
  constructor
  · rw [(get_mac_spec true ⟨2, [1, 2, 3, 4, 5, 6], 0, [], 0⟩ [9, 9, 9, 9, 9, 9, 9]).2.2 rfl rfl]
    rfl
  · exact (get_mac_spec false ⟨2, [1, 2, 3, 4, 5, 6], 0, [], 0⟩ [9, 9]).2.1 rfl

/-- C7: get_dram_size always returns success; an untrusted record yields
the fixed default capacity and a trusted one dramsize * 128 MiB. -/
theorem get_dram_size_spec (is_valid : Bool) (ep : var_eeprom) :
    (var_eeprom_get_dram_size is_valid ep).1 = 0 ∧
    (is_valid = false → (var_eeprom_get_dram_size is_valid ep).2 = DEFAULT_SDRAM_SIZE) ∧
    (is_valid = true → (var_eeprom_get_dram_size is_valid ep).2
        = ep.dramsize * 134217728) := by
  cases is_valid with
  | false => simp [var_eeprom_get_dram_size]
  | true =>
    refine ⟨rfl, by simp, ?_⟩
    intro h
    simp [var_eeprom_get_dram_size, Nat.shiftLeft_eq]
    ring

/-- C7 witness: dramsize 4 on a trusted record gives 512 MiB, and an
untrusted record gives the fixed default. -/
theorem get_dram_size_spec_witness :
    (var_eeprom_get_dram_size true ⟨1, [], 4, [], 0⟩).2 = 536870912 ∧
    (var_eeprom_get_dram_size false ⟨1, [], 4, [], 0⟩).2 = DEFAULT_SDRAM_SIZE := by
  constructor
  · rw [(get_dram_size_spec true ⟨1, [], 4, [], 0⟩).2.2 rfl]
    decide
  · exact (get_dram_size_spec false ⟨1, [], 4, [], 0⟩).2.1 rfl

/-- C3 counterexample: the claim says each adjustment row overwrites
the value of the first base-table entry at or after the cursor whose
register address matches, and that a failed match leaves the cursor at
the table's end.  But the C narrows the base-table row count through
the u8 table_size parameter: for this 256-row table (cfg_num = 256,
narrowed to 0) the adjustment row's register address matches the very
first entry at the cursor, yet after adjust_dram_table processes the
row (one bus read issued) the table is completely unchanged and no
overwrite happened. -/
theorem merge_cursor_truncation_counterexample :
    ((adjust_dram_table true (fun _ => ⟨5, 99⟩) 0 1
        (List.replicate 256 (⟨5, 7⟩ : dram_cfg_param)).length
        (List.replicate 256 ⟨5, 7⟩)).1 = List.replicate 256 ⟨5, 7⟩) ∧
    ((List.replicate 256 (⟨5, 7⟩ : dram_cfg_param)).getD 0 ⟨0, 0⟩).reg = 5 ∧
    (adjust_dram_table true (fun _ => ⟨5, 99⟩) 0 1
        (List.replicate 256 (⟨5, 7⟩ : dram_cfg_param)).length
        (List.replicate 256 ⟨5, 7⟩)).2 = [0] := by
  refine ⟨by decide, by decide, by decide⟩

/-- C3 (amended): the scan for each adjustment row is bounded by the
u8-narrowed base-table size B (the unsigned int cfg_num passed mod 256
into the u8 table_size parameter), not by the table's true end.
Within that bound the cursor persists and never rescans: a row whose
register address first matches at index k (at or after the cursor j
and below B) overwrites exactly that entry's value, leaving its
register field equal to the matched address, and leaves the cursor at
the matched index; a row with no match below the bound leaves the
table unchanged with the cursor at the bound; and once the cursor is
at the bound every subsequent adjustment row of the outer loop leaves
the table unchanged.  For tables of fewer than 256 rows the bound is
the table's true length, as the claim originally described. -/
theorem merge_cursor_semantics (table : List dram_cfg_param) (B j r v : Nat)
    (hj : j ≤ B) :
    (∀ (k : Nat), k < B → j ≤ k → (table.getD k ⟨0, 0⟩).reg = r →
        (∀ (l : Nat), l < k → j ≤ l → (table.getD l ⟨0, 0⟩).reg ≠ r) →
        scanFrom table B j r v = (table.set k { reg := r, val := v }, k)) ∧
    ((∀ (k : Nat), k < B → j ≤ k → (table.getD k ⟨0, 0⟩).reg ≠ r) →
        scanFrom table B j r v = (table, B)) ∧
    (∀ (bus : Nat → dram_cfg_param) (n off : Nat),
        (adjLoop bus n off B B table).1 = table) := by
  refine ⟨?_, ?_, ?_⟩
  · intro k hk hjk hreg hmin
    exact scanGo_found r v (B - j) table j B rfl k hk hjk hreg hmin
  · intro hnone
    exact scanGo_none r v (B - j) table j B rfl hj hnone
  · intro bus n off
    exact adjLoop_end bus n off B table

/-- C3 witness: in a two-entry table (bound 2 = its length, no
truncation) the row for register 2 overwrites the second entry's value
and leaves the cursor on index 1, while a row for an absent register
leaves the table unchanged with the cursor at the end. -/
theorem merge_cursor_semantics_witness :
    scanFrom [⟨1, 10⟩, ⟨2, 20⟩] 2 0 2 99 = ([⟨1, 10⟩, ⟨2, 99⟩], 1) ∧
    scanFrom [⟨1, 10⟩, ⟨2, 20⟩] 2 0 7 99 = ([⟨1, 10⟩, ⟨2, 20⟩], 2) := by
  constructor
  · have h := (merge_cursor_semantics [⟨1, 10⟩, ⟨2, 20⟩] 2 0 2 99 (by decide)).1
      1 (by decide) (by decide) (by decide) (by decide)
    rw [h]
    decide
  · have h := (merge_cursor_semantics [⟨1, 10⟩, ⟨2, 20⟩] 2 0 7 99 (by decide)).2.1
      (by decide)
    rw [h]

/-- C4: with an untrusted primary record or a record version below 2 the
adjustment engine is a no-op: the timing structure is returned
byte-for-byte unchanged and no bus reads are issued. -/
theorem adjust_dram_noop_untrusted_or_old (dev_ok is_valid : Bool)
    (bus : Nat → dram_cfg_param) (ep : var_eeprom) (garbage : List Nat)
    (d : dram_timing_info) (h : is_valid = false ∨ ep.version < 2) :
    var_eeprom_adjust_dram dev_ok is_valid bus ep garbage d = (d, []) := by
  rcases h with h | h
  · subst h
    simp [var_eeprom_adjust_dram]
  · cases is_valid with
    | false => simp [var_eeprom_adjust_dram]
    | true => simp [var_eeprom_adjust_dram, h]

/-- C4 witness: a version 1 trusted record and an untrusted version 3
record both leave a concrete timing structure unchanged with no reads. -/
theorem adjust_dram_noop_untrusted_or_old_witness :
    var_eeprom_adjust_dram true true (fun _ => ⟨0, 0⟩)
        ⟨1, [], 0, [8, 16, 0, 0, 0, 0], 1600⟩ [7, 7, 7, 7, 7]
        ⟨[⟨5, 7⟩], [], [], ⟨0, []⟩, ⟨0, []⟩, [0, 0, 0, 0]⟩
      = (⟨[⟨5, 7⟩], [], [], ⟨0, []⟩, ⟨0, []⟩, [0, 0, 0, 0]⟩, []) ∧
    var_eeprom_adjust_dram true false (fun _ => ⟨0, 0⟩)
        ⟨3, [], 0, [8, 16, 0, 0, 0, 0], 1600⟩ [7, 7, 7, 7, 7]
        ⟨[⟨5, 7⟩], [], [], ⟨0, []⟩, ⟨0, []⟩, [0, 0, 0, 0]⟩
      = (⟨[⟨5, 7⟩], [], [], ⟨0, []⟩, ⟨0, []⟩, [0, 0, 0, 0]⟩, []) := by
  constructor
  · exact adjust_dram_noop_untrusted_or_old true true (fun _ => ⟨0, 0⟩)
      ⟨1, [], 0, [8, 16, 0, 0, 0, 0], 1600⟩ [7, 7, 7, 7, 7]
      ⟨[⟨5, 7⟩], [], [], ⟨0, []⟩, ⟨0, []⟩, [0, 0, 0, 0]⟩ (Or.inr (by decide))
  · exact adjust_dram_noop_untrusted_or_old true false (fun _ => ⟨0, 0⟩)
      ⟨3, [], 0, [8, 16, 0, 0, 0, 0], 1600⟩ [7, 7, 7, 7, 7]
      ⟨[⟨5, 7⟩], [], [], ⟨0, []⟩, ⟨0, []⟩, [0, 0, 0, 0]⟩ (Or.inl rfl)

/-- C6: for a trusted record of version at least 2, after the engine has
processed the named tables the drate fields of both frequency set
points and the first entry of fsp_table all equal the record's
fsp_drate. -/
theorem adjust_dram_fsp_drate_override (dev_ok : Bool) (bus : Nat → dram_cfg_param)
    (ep : var_eeprom) (garbage : List Nat) (d : dram_timing_info)
    (hv : 2 ≤ ep.version) (ht : 0 < d.fsp_table.length) :
    ((var_eeprom_adjust_dram dev_ok true bus ep garbage d).1).fsp_msg0.drate
        = ep.fsp_drate ∧
    ((var_eeprom_adjust_dram dev_ok true bus ep garbage d).1).fsp_msg1.drate
        = ep.fsp_drate ∧
    ((var_eeprom_adjust_dram dev_ok true bus ep garbage d).1).fsp_table.getD 0 0
        = ep.fsp_drate := by
  have hv2 : ¬ ep.version < 2 := by omega
  obtain ⟨x, xs, hxe⟩ : ∃ x xs, d.fsp_table = x :: xs := by
    cases hft : d.fsp_table with
    | nil => rw [hft] at ht; simp at ht
    | cons x xs => exact ⟨x, xs, rfl⟩
  refine ⟨?_, ?_, ?_⟩ <;> simp [var_eeprom_adjust_dram, hv2, hxe]

/-- C6 witness: a concrete trusted version 2 record with fsp_drate 3200
propagates 3200 into both drate fields and fsp_table[0]. -/
theorem adjust_dram_fsp_drate_override_witness :
    ((var_eeprom_adjust_dram true true (fun _ => ⟨0, 0⟩)
        ⟨2, [], 0, [8, 0, 0, 0, 0, 0], 3200⟩ [0, 0, 0, 0, 0]
        ⟨[⟨5, 7⟩], [], [], ⟨0, []⟩, ⟨0, []⟩, [1866, 0, 0, 0]⟩).1).fsp_msg0.drate = 3200 ∧
    ((var_eeprom_adjust_dram true true (fun _ => ⟨0, 0⟩)
        ⟨2, [], 0, [8, 0, 0, 0, 0, 0], 3200⟩ [0, 0, 0, 0, 0]
        ⟨[⟨5, 7⟩], [], [], ⟨0, []⟩, ⟨0, []⟩, [1866, 0, 0, 0]⟩).1).fsp_msg1.drate = 3200 ∧
    ((var_eeprom_adjust_dram true true (fun _ => ⟨0, 0⟩)
        ⟨2, [], 0, [8, 0, 0, 0, 0, 0], 3200⟩ [0, 0, 0, 0, 0]
        ⟨[⟨5, 7⟩], [], [], ⟨0, []⟩, ⟨0, []⟩, [1866, 0, 0, 0]⟩).1).fsp_table.getD 0 0
      = 3200 := by
  exact adjust_dram_fsp_drate_override true (fun _ => ⟨0, 0⟩)
    ⟨2, [], 0, [8, 0, 0, 0, 0, 0], 3200⟩ [0, 0, 0, 0, 0]
    ⟨[⟨5, 7⟩], [], [], ⟨0, []⟩, ⟨0, []⟩, [1866, 0, 0, 0]⟩ (by decide) (by decide)

/-- C10: the engine never modifies the register-address field of any
base-table entry, and only matched entries' values may change: for
every input, the register-address projection of each of the five base
tables is unchanged by var_eeprom_adjust_dram; every base-table entry
is either byte-for-byte unchanged or was matched by an adjustment row
the engine read from the bus (same register address), its new value
being that row's value; entries of fsp_table other than index 0 are
unchanged and the length of fsp_table is preserved. -/
theorem adjust_dram_frame_effect (dev_ok is_valid : Bool)
    (bus : Nat → dram_cfg_param) (ep : var_eeprom) (garbage : List Nat)
    (d : dram_timing_info) :
    (((var_eeprom_adjust_dram dev_ok is_valid bus ep garbage d).1).ddrc_cfg).map
        dram_cfg_param.reg = (d.ddrc_cfg).map dram_cfg_param.reg ∧
    (((var_eeprom_adjust_dram dev_ok is_valid bus ep garbage d).1).ddrphy_cfg).map
        dram_cfg_param.reg = (d.ddrphy_cfg).map dram_cfg_param.reg ∧
    (((var_eeprom_adjust_dram dev_ok is_valid bus ep garbage d).1).ddrphy_pie).map
        dram_cfg_param.reg = (d.ddrphy_pie).map dram_cfg_param.reg ∧
    (((var_eeprom_adjust_dram dev_ok is_valid bus ep garbage d).1).fsp_msg0.fsp_cfg).map
        dram_cfg_param.reg = (d.fsp_msg0.fsp_cfg).map dram_cfg_param.reg ∧
    (((var_eeprom_adjust_dram dev_ok is_valid bus ep garbage d).1).fsp_msg1.fsp_cfg).map
        dram_cfg_param.reg = (d.fsp_msg1.fsp_cfg).map dram_cfg_param.reg ∧
    (∀ i, ((var_eeprom_adjust_dram dev_ok is_valid bus ep garbage d).1).ddrc_cfg.getD
          i ⟨0, 0⟩ = d.ddrc_cfg.getD i ⟨0, 0⟩ ∨
      ∃ q, q ∈ (var_eeprom_adjust_dram dev_ok is_valid bus ep garbage d).2 ∧
        (bus q).reg = (d.ddrc_cfg.getD i ⟨0, 0⟩).reg ∧
        ((var_eeprom_adjust_dram dev_ok is_valid bus ep garbage d).1).ddrc_cfg.getD
            i ⟨0, 0⟩
          = { reg := (d.ddrc_cfg.getD i ⟨0, 0⟩).reg, val := (bus q).val }) ∧
    (∀ i, ((var_eeprom_adjust_dram dev_ok is_valid bus ep garbage d).1).ddrphy_cfg.getD
          i ⟨0, 0⟩ = d.ddrphy_cfg.getD i ⟨0, 0⟩ ∨
      ∃ q, q ∈ (var_eeprom_adjust_dram dev_ok is_valid bus ep garbage d).2 ∧
        (bus q).reg = (d.ddrphy_cfg.getD i ⟨0, 0⟩).reg ∧
        ((var_eeprom_adjust_dram dev_ok is_valid bus ep garbage d).1).ddrphy_cfg.getD
            i ⟨0, 0⟩
          = { reg := (d.ddrphy_cfg.getD i ⟨0, 0⟩).reg, val := (bus q).val }) ∧
    (∀ i, ((var_eeprom_adjust_dram dev_ok is_valid bus ep garbage d).1).ddrphy_pie.getD
          i ⟨0, 0⟩ = d.ddrphy_pie.getD i ⟨0, 0⟩ ∨
      ∃ q, q ∈ (var_eeprom_adjust_dram dev_ok is_valid bus ep garbage d).2 ∧
        (bus q).reg = (d.ddrphy_pie.getD i ⟨0, 0⟩).reg ∧
        ((var_eeprom_adjust_dram dev_ok is_valid bus ep garbage d).1).ddrphy_pie.getD
            i ⟨0, 0⟩
          = { reg := (d.ddrphy_pie.getD i ⟨0, 0⟩).reg, val := (bus q).val }) ∧
    (∀ i, ((var_eeprom_adjust_dram dev_ok is_valid bus ep garbage
            d).1).fsp_msg0.fsp_cfg.getD i ⟨0, 0⟩ = d.fsp_msg0.fsp_cfg.getD i ⟨0, 0⟩ ∨
      ∃ q, q ∈ (var_eeprom_adjust_dram dev_ok is_valid bus ep garbage d).2 ∧
        (bus q).reg = (d.fsp_msg0.fsp_cfg.getD i ⟨0, 0⟩).reg ∧
        ((var_eeprom_adjust_dram dev_ok is_valid bus ep garbage
            d).1).fsp_msg0.fsp_cfg.getD i ⟨0, 0⟩
          = { reg := (d.fsp_msg0.fsp_cfg.getD i ⟨0, 0⟩).reg, val := (bus q).val }) ∧
    (∀ i, ((var_eeprom_adjust_dram dev_ok is_valid bus ep garbage
            d).1).fsp_msg1.fsp_cfg.getD i ⟨0, 0⟩ = d.fsp_msg1.fsp_cfg.getD i ⟨0, 0⟩ ∨
      ∃ q, q ∈ (var_eeprom_adjust_dram dev_ok is_valid bus ep garbage d).2 ∧
        (bus q).reg = (d.fsp_msg1.fsp_cfg.getD i ⟨0, 0⟩).reg ∧
        ((var_eeprom_adjust_dram dev_ok is_valid bus ep garbage
            d).1).fsp_msg1.fsp_cfg.getD i ⟨0, 0⟩
          = { reg := (d.fsp_msg1.fsp_cfg.getD i ⟨0, 0⟩).reg, val := (bus q).val }) ∧
    (∀ k, k ≠ 0 → ((var_eeprom_adjust_dram dev_ok is_valid bus ep garbage
        d).1).fsp_table.getD k 0 = d.fsp_table.getD k 0) ∧
    ((var_eeprom_adjust_dram dev_ok is_valid bus ep garbage d).1).fsp_table.length
      = d.fsp_table.length := by
  cases is_valid with
  | false =>
    exact ⟨rfl, rfl, rfl, rfl, rfl, fun i => Or.inl rfl, fun i => Or.inl rfl,
      fun i => Or.inl rfl, fun i => Or.inl rfl, fun i => Or.inl rfl,
      fun k hk => rfl, rfl⟩
  | true =>
    by_cases hv : ep.version < 2
    · have hres : var_eeprom_adjust_dram dev_ok true bus ep garbage d = (d, []) := by
        simp [var_eeprom_adjust_dram, hv]
      rw [hres]
      exact ⟨rfl, rfl, rfl, rfl, rfl, fun i => Or.inl rfl, fun i => Or.inl rfl,
        fun i => Or.inl rfl, fun i => Or.inl rfl, fun i => Or.inl rfl,
        fun k hk => rfl, rfl⟩
    · have hres : var_eeprom_adjust_dram dev_ok true bus ep garbage d
          = ({ ddrc_cfg := (adjust_dram_table dev_ok bus (ep.off.getD 0 0)
                  ((sizes_loop DRAM_TABLE_NUM 0 ep.off garbage).getD 0 0)
                  d.ddrc_cfg.length d.ddrc_cfg).1
               ddrphy_cfg := (adjust_dram_table dev_ok bus (ep.off.getD 1 0)
                  ((sizes_loop DRAM_TABLE_NUM 0 ep.off garbage).getD 1 0)
                  d.ddrphy_cfg.length d.ddrphy_cfg).1
               ddrphy_pie := (adjust_dram_table dev_ok bus (ep.off.getD 2 0)
                  ((sizes_loop DRAM_TABLE_NUM 0 ep.off garbage).getD 2 0)
                  d.ddrphy_pie.length d.ddrphy_pie).1
               fsp_msg0 := { drate := ep.fsp_drate
                             fsp_cfg := (adjust_dram_table dev_ok bus (ep.off.getD 3 0)
                                ((sizes_loop DRAM_TABLE_NUM 0 ep.off garbage).getD 3 0)
                                d.fsp_msg0.fsp_cfg.length d.fsp_msg0.fsp_cfg).1 }
               fsp_msg1 := { drate := ep.fsp_drate
                             fsp_cfg := (adjust_dram_table dev_ok bus (ep.off.getD 4 0)
                                ((sizes_loop DRAM_TABLE_NUM 0 ep.off garbage).getD 4 0)
                                d.fsp_msg1.fsp_cfg.length d.fsp_msg1.fsp_cfg).1 }
               fsp_table := d.fsp_table.set 0 ep.fsp_drate },
             (adjust_dram_table dev_ok bus (ep.off.getD 0 0)
                  ((sizes_loop DRAM_TABLE_NUM 0 ep.off garbage).getD 0 0)
                  d.ddrc_cfg.length d.ddrc_cfg).2 ++
             (adjust_dram_table dev_ok bus (ep.off.getD 1 0)
                  ((sizes_loop DRAM_TABLE_NUM 0 ep.off garbage).getD 1 0)
                  d.ddrphy_cfg.length d.ddrphy_cfg).2 ++
             (adjust_dram_table dev_ok bus (ep.off.getD 2 0)
                  ((sizes_loop DRAM_TABLE_NUM 0 ep.off garbage).getD 2 0)
                  d.ddrphy_pie.length d.ddrphy_pie).2 ++
             (adjust_dram_table dev_ok bus (ep.off.getD 3 0)
                  ((sizes_loop DRAM_TABLE_NUM 0 ep.off garbage).getD 3 0)
                  d.fsp_msg0.fsp_cfg.length d.fsp_msg0.fsp_cfg).2 ++
             (adjust_dram_table dev_ok bus (ep.off.getD 4 0)
                  ((sizes_loop DRAM_TABLE_NUM 0 ep.off garbage).getD 4 0)
                  d.fsp_msg1.fsp_cfg.length d.fsp_msg1.fsp_cfg).2) := by
        simp [var_eeprom_adjust_dram, hv]
      rw [hres]
      refine ⟨adjust_dram_table_map_reg _ _ _ _ _ _, adjust_dram_table_map_reg _ _ _ _ _ _,
        adjust_dram_table_map_reg _ _ _ _ _ _, adjust_dram_table_map_reg _ _ _ _ _ _,
        adjust_dram_table_map_reg _ _ _ _ _ _, ?_, ?_, ?_, ?_, ?_,
        fun k hk => list_getD_set_other d.fsp_table k 0 hk _ 0, by simp⟩
      · intro i
        rcases adjust_dram_table_frame dev_ok bus (ep.off.getD 0 0)
            ((sizes_loop DRAM_TABLE_NUM 0 ep.off garbage).getD 0 0)
            d.ddrc_cfg.length d.ddrc_cfg i with h | ⟨q, hq, h1, h2⟩
        · exact Or.inl h
        · exact Or.inr ⟨q, List.mem_append_left _ (List.mem_append_left _ (List.mem_append_left _ (List.mem_append_left _ hq))), h1, h2⟩
      · intro i
        rcases adjust_dram_table_frame dev_ok bus (ep.off.getD 1 0)
            ((sizes_loop DRAM_TABLE_NUM 0 ep.off garbage).getD 1 0)
            d.ddrphy_cfg.length d.ddrphy_cfg i with h | ⟨q, hq, h1, h2⟩
        · exact Or.inl h
        · exact Or.inr ⟨q, List.mem_append_left _ (List.mem_append_left _ (List.mem_append_left _ (List.mem_append_right _ hq))), h1, h2⟩
      · intro i
        rcases adjust_dram_table_frame dev_ok bus (ep.off.getD 2 0)
            ((sizes_loop DRAM_TABLE_NUM 0 ep.off garbage).getD 2 0)
            d.ddrphy_pie.length d.ddrphy_pie i with h | ⟨q, hq, h1, h2⟩
        · exact Or.inl h
        · exact Or.inr ⟨q, List.mem_append_left _ (List.mem_append_left _ (List.mem_append_right _ hq)), h1, h2⟩
      · intro i
        rcases adjust_dram_table_frame dev_ok bus (ep.off.getD 3 0)
            ((sizes_loop DRAM_TABLE_NUM 0 ep.off garbage).getD 3 0)
            d.fsp_msg0.fsp_cfg.length d.fsp_msg0.fsp_cfg i with h | ⟨q, hq, h1, h2⟩
        · exact Or.inl h
        · exact Or.inr ⟨q, List.mem_append_left _ (List.mem_append_right _ hq), h1, h2⟩
      · intro i
        rcases adjust_dram_table_frame dev_ok bus (ep.off.getD 4 0)
            ((sizes_loop DRAM_TABLE_NUM 0 ep.off garbage).getD 4 0)
            d.fsp_msg1.fsp_cfg.length d.fsp_msg1.fsp_cfg i with h | ⟨q, hq, h1, h2⟩
        · exact Or.inl h
        · exact Or.inr ⟨q, List.mem_append_right _ hq, h1, h2⟩

/-- C10 witness: at a concrete input with a two-entry fsp_table the
entry at index 1 is untouched by the engine. -/
theorem adjust_dram_frame_effect_witness :
    ((var_eeprom_adjust_dram true true (fun _ => ⟨5, 99⟩)
        ⟨2, [], 0, [8, 16, 0, 0, 0, 0], 3200⟩ [0, 0, 0, 0, 0]
        ⟨[⟨5, 7⟩], [], [], ⟨0, []⟩, ⟨0, []⟩, [1866, 2400, 0, 0]⟩).1).fsp_table.getD 1 0
      = 2400 := by
  have h := (adjust_dram_frame_effect true true (fun _ => ⟨5, 99⟩)
      ⟨2, [], 0, [8, 16, 0, 0, 0, 0], 3200⟩ [0, 0, 0, 0, 0]
      ⟨[⟨5, 7⟩], [], [], ⟨0, []⟩, ⟨0, []⟩,
        [1866, 2400, 0, 0]⟩).2.2.2.2.2.2.2.2.2.2.1 1 (by decide)
  rw [h]
  decide

/-- C1: the claim fails on the code.  With off[1] = 0 the offset
sequence terminates before the first table, so per the claim all five
adjustment tables must be skipped with zero bus reads.  The size loop
indeed stops, but it leaves the local u16 adj_table_size array holding
its uninitialized stack contents, and the adjust loop still passes
those contents to adjust_dram_table for every table: with stack
garbage 3 in the first slot the engine issues three bus reads at
offsets 8, 16 and 24 for a table the claim requires to be absent. -/
theorem adjust_dram_uninitialized_sizes_bug :
    (var_eeprom_adjust_dram true true (fun _ => ⟨0, 0⟩)
        ⟨2, [], 0, [8, 0, 0, 0, 0, 0], 0⟩ [3, 0, 0, 0, 0]
        ⟨[⟨5, 7⟩], [], [], ⟨0, []⟩, ⟨0, []⟩, [0, 0, 0, 0]⟩).2 = [8, 16, 24] := by
  decide
